import Mathlib

/- Verification development for the HOB (Hand-Off Block) list allocator in
   core/arch/arm/kernel/hob/hob.c.  The C code is shallowly embedded:
   byte-addressable memory is a function from addresses to byte values,
   machine integers are natural numbers with explicit truncation wherever
   the C integer types make truncation observable, and every C function
   becomes a pure state-passing Lean function that returns the updated
   table and memory together with its C return value. -/

namespace Hob

/- Byte-addressable memory over the flat physical region the allocator
   writes records into.  Every stored value is reduced mod 256. -/
def Mem : Type := Nat → Nat

def memZero : Mem := fun _ => 0

/-- Modelled from the spec: hob.h is not under src/, so the record type tags
come from the Platform Initialization record format the spec names as the
wire contract.  The handoff-table tag. -/
def EFI_HOB_TYPE_HANDOFF : Nat := 1

/-- Modelled from the spec: hob.h is not under src/.  The resource
descriptor record tag from the PI record format. -/
def EFI_HOB_TYPE_RESOURCE_DESCRIPTOR : Nat := 3

/-- Modelled from the spec: hob.h is not under src/.  The GUID extension
record tag from the PI record format. -/
def EFI_HOB_TYPE_GUID_EXTENSION : Nat := 4

/-- Modelled from the spec: hob.h is not under src/.  The firmware volume
record tag from the PI record format. -/
def EFI_HOB_TYPE_FV : Nat := 5

/-- Modelled from the spec: hob.h is not under src/.  The reserved
end-marker tag carried by the terminator record. -/
def EFI_HOB_TYPE_END_OF_HOB_LIST : Nat := 0xffff

/-- Modelled from the spec: hob.h is not under src/.  The fixed version
constant written at initialization. -/
def EFI_HOB_HANDOFF_TABLE_VERSION : Nat := 9

/-- Modelled from the spec: hob.h is not under src/.  The full
configuration boot mode constant written at initialization. -/
def BOOT_WITH_FULL_CONFIGURATION : Nat := 0

/-- Modelled from the spec: the generic record header is a 16-bit type tag,
a 16-bit length and a 32-bit reserved field, hence 8 bytes. -/
def sizeof_efi_hob_generic_header : Nat := 8

/-- Modelled from the spec: the handoff table is the generic header (8)
followed by two 32-bit fields (version, boot mode) and five 64-bit
addresses (memory top, memory bottom, free top, free bottom, end of hob
list), hence 56 bytes. -/
def sizeof_efi_hob_handoff_info_table : Nat := 56

/-- Modelled from the spec: a GUID extension record is the generic header
(8) followed by a 16-byte tag, hence 24 bytes. -/
def sizeof_efi_hob_guid_type : Nat := 24

/-- Modelled from the spec: a resource descriptor record is the generic
header (8), a 16-byte owner identifier, two 32-bit fields (resource type,
resource attribute) and two 64-bit fields (physical start, resource
length), hence 48 bytes. -/
def sizeof_efi_hob_resource_descriptor : Nat := 48

/-- Modelled from the spec: a firmware volume record is the generic header
(8) followed by a 64-bit base address and a 64-bit length, hence 24
bytes. -/
def sizeof_efi_hob_firmware_volume : Nat := 24

/-- Modelled from the spec: TEE_UUID is the 16-byte tag type of the GUID
producer. -/
def sizeof_TEE_UUID : Nat := 16

/- The C return values TEE_SUCCESS, TEE_ERROR_OUT_OF_MEMORY and
   TEE_ERROR_BAD_PARAMETERS, abstracted to the three conditions the spec
   describes as the whole error surface. -/
inductive TeeResult where
  | success
  | outOfMemory
  | badParameters
  deriving DecidableEq

/- struct efi_hob_generic_header: hob_type and hob_length are uint16_t,
   reserved is uint32_t. -/
structure efi_hob_generic_header where
  hob_type : Nat
  hob_length : Nat
  reserved : Nat
  deriving DecidableEq

/- struct efi_hob_handoff_info_table.  The scalar fields the C code reads
   and writes are kept as table state; address fields are uint64_t
   (efi_physical_address_t). -/
structure efi_hob_handoff_info_table where
  header : efi_hob_generic_header
  version : Nat
  boot_mode : Nat
  efi_memory_top : Nat
  efi_memory_bottom : Nat
  efi_free_memory_top : Nat
  efi_free_memory_bottom : Nat
  efi_end_of_hob_list : Nat
  deriving DecidableEq

/- Writing a generic header to memory at address a: the C stores
   new_hob->hob_type = t (uint16, little endian at a), hob_length = l
   (uint16 at a+2) and reserved = 0 (uint32 at a+4). -/
def writeHdr (m : Mem) (a t l : Nat) : Mem := fun i =>
  if i = a then t % 256
  else if i = a + 1 then t / 256 % 256
  else if i = a + 2 then l % 256
  else if i = a + 3 then l / 256 % 256
  else if i = a + 4 then 0
  else if i = a + 5 then 0
  else if i = a + 6 then 0
  else if i = a + 7 then 0
  else m i

/- A little-endian uint32 store, used for the resource descriptor
   fields. -/
def writeU32 (m : Mem) (a v : Nat) : Mem := fun i =>
  if i = a then v % 256
  else if i = a + 1 then v / 256 % 256
  else if i = a + 2 then v / 65536 % 256
  else if i = a + 3 then v / 16777216 % 256
  else m i

/- A little-endian uint64 store, used for the resource descriptor and
   firmware volume fields. -/
def writeU64 (m : Mem) (a v : Nat) : Mem := fun i =>
  if i = a then v % 256
  else if i = a + 1 then v / 256 % 256
  else if i = a + 2 then v / 65536 % 256
  else if i = a + 3 then v / 16777216 % 256
  else if i = a + 4 then v / 4294967296 % 256
  else if i = a + 5 then v / 1099511627776 % 256
  else if i = a + 6 then v / 281474976710656 % 256
  else if i = a + 7 then v / 72057594037927936 % 256
  else m i

/- memcpy and memset: store a list of bytes at increasing addresses. -/
def storeBytes : Mem → Nat → List Nat → Mem
  | m, _, [] => m
  | m, a, b :: bs => storeBytes (fun i => if i = a then b % 256 else m i) (a + 1) bs

/- Reading back a little-endian uint16 and a run of bytes. -/
def loadU16 (m : Mem) (a : Nat) : Nat := m a + 256 * m (a + 1)

def loadBytes (m : Mem) (a : Nat) : Nat → List Nat
  | 0 => []
  | n + 1 => m a :: loadBytes m (a + 1) n

/- ALIGN_UP(x, 8) followed by the assignment back into the uint16_t
   hob_length: the mask form (x + 7) AND NOT 7 clears the low three bits,
   which over the int-promoted operands equals rounding down x + 7 to a
   multiple of 8; the assignment truncates the int result mod 2^16. -/
def alignUp8u16 (x : Nat) : Nat := 8 * ((x + 7) / 8) % 65536

/- The uint64_t subtraction efi_free_memory_top - efi_free_memory_bottom,
   which wraps mod 2^64 when the bottom exceeds the top. -/
def sub64 (a b : Nat) : Nat := (a % 18446744073709551616 + 18446744073709551616
  - b % 18446744073709551616) % 18446744073709551616

/- static void *_create_hob(struct efi_hob_handoff_info_table *hob_table,
   uint16_t hob_type, uint16_t hob_length).
   The result is the returned record address (none for NULL) together with
   the table and memory after the call; all checks in the C code precede
   every store, and each failing path returns with no store performed. -/
def _create_hob : Option efi_hob_handoff_info_table → Mem → Nat → Nat →
    Option Nat × Option efi_hob_handoff_info_table × Mem
  | none, m, _, _ => (none, none, m)
  | some t, m, hob_type, hob_length =>
    let len := alignUp8u16 hob_length
    if len = 0 then (none, some t, m)
    else
      let free_mem_size := sub64 t.efi_free_memory_top t.efi_free_memory_bottom
      if len > free_mem_size then (none, some t, m)
      else
        let new_hob := t.efi_end_of_hob_list
        let m1 := writeHdr m new_hob hob_type len
        let hob_end := new_hob + len
        let m2 := writeHdr m1 hob_end EFI_HOB_TYPE_END_OF_HOB_LIST
          sizeof_efi_hob_generic_header
        (some new_hob,
         some { t with efi_end_of_hob_list := hob_end,
                       efi_free_memory_bottom := hob_end + sizeof_efi_hob_generic_header },
         m2)

/- struct efi_hob_handoff_info_table *create_hob_list(uintptr_t
   efi_memory_begin, size_t efi_memory_length, uintptr_t
   efi_free_memory_bottom, size_t efi_free_memory_length).
   On success the result carries the table address (the free-region base
   the table is placed at), the table contents and the memory after the
   terminator header has been written just past the table.  The two sums
   stored into the uint64 fields efi_memory_top and efi_free_memory_top
   wrap mod 2^64 as the C stores do. -/
def create_hob_list (m : Mem) (efi_memory_begin efi_memory_length
    efi_free_memory_bottom efi_free_memory_length : Nat) :
    Option (Nat × efi_hob_handoff_info_table × Mem) :=
  if efi_memory_begin = 0 ∨ efi_free_memory_bottom = 0 ∨
      efi_memory_length = 0 ∨ efi_free_memory_length = 0 then none
  else
    let hob_table_addr := efi_free_memory_bottom
    let hob_end := hob_table_addr + sizeof_efi_hob_handoff_info_table
    let m1 := writeHdr m hob_end EFI_HOB_TYPE_END_OF_HOB_LIST
      sizeof_efi_hob_generic_header
    some (hob_table_addr,
      { header := { hob_type := EFI_HOB_TYPE_HANDOFF,
                    hob_length := sizeof_efi_hob_handoff_info_table,
                    reserved := 0 },
        version := EFI_HOB_HANDOFF_TABLE_VERSION,
        boot_mode := BOOT_WITH_FULL_CONFIGURATION,
        efi_memory_top := (efi_memory_begin + efi_memory_length) % 18446744073709551616,
        efi_memory_bottom := efi_memory_begin,
        efi_free_memory_top :=
          (efi_memory_begin + efi_free_memory_length) % 18446744073709551616,
        efi_free_memory_bottom := hob_end + sizeof_efi_hob_generic_header,
        efi_end_of_hob_list := hob_end },
      m1)

/- TEE_Result create_resource_descriptor_hob(...).  The four payload
   fields are stored behind the header and the owner field is
   zero-filled. -/
def create_resource_descriptor_hob (tblOpt : Option efi_hob_handoff_info_table)
    (m : Mem) (resource_type resource_attribute phy_addr_start resource_length : Nat) :
    TeeResult × Option efi_hob_handoff_info_table × Mem :=
  let r := _create_hob tblOpt m EFI_HOB_TYPE_RESOURCE_DESCRIPTOR
    sizeof_efi_hob_resource_descriptor
  match r.1 with
  | none => (TeeResult.outOfMemory, r.2.1, r.2.2)
  | some h =>
    (TeeResult.success, r.2.1,
     storeBytes
       (writeU64 (writeU64 (writeU32 (writeU32 r.2.2 (h + 24) resource_type)
         (h + 28) resource_attribute) (h + 32) phy_addr_start) (h + 40) resource_length)
       (h + 8) (List.replicate 16 0))

/- TEE_Result create_guid_hob(struct efi_hob_handoff_info_table *hob_table,
   TEE_UUID *guid, uint16_t data_length, void **data).
   guid is its 16 bytes (none for a NULL pointer); data_is_null says the
   data out-pointer itself is NULL, data_old the value the pointed-to slot
   holds before the call.  The last component of the result is the value
   of that slot after the call (0 represents NULL). -/
def create_guid_hob (tblOpt : Option efi_hob_handoff_info_table) (m : Mem)
    (guid : Option (List Nat)) (data_is_null : Bool) (data_length : Nat)
    (data_old : Nat) : TeeResult × Option efi_hob_handoff_info_table × Mem × Nat :=
  let hob_length := (data_length + sizeof_efi_hob_guid_type) % 65536
  if guid.isNone ∨ data_is_null ∨ hob_length < data_length then
    (TeeResult.badParameters, tblOpt, m, data_old)
  else
    let r := _create_hob tblOpt m EFI_HOB_TYPE_GUID_EXTENSION hob_length
    match r.1 with
    | none => (TeeResult.outOfMemory, r.2.1, r.2.2, 0)
    | some h =>
      (TeeResult.success, r.2.1,
       storeBytes r.2.2 (h + sizeof_efi_hob_generic_header) (guid.getD []),
       h + sizeof_efi_hob_guid_type)

/- TEE_Result create_fv_hob(...). -/
def create_fv_hob (tblOpt : Option efi_hob_handoff_info_table) (m : Mem)
    (base_addr size : Nat) : TeeResult × Option efi_hob_handoff_info_table × Mem :=
  let r := _create_hob tblOpt m EFI_HOB_TYPE_FV sizeof_efi_hob_firmware_volume
  match r.1 with
  | none => (TeeResult.outOfMemory, r.2.1, r.2.2)
  | some h =>
    (TeeResult.success, r.2.1, writeU64 (writeU64 r.2.2 (h + 8) base_addr) (h + 16) size)

/- Projections used to state claims about initialization results. -/
def tblOfResult : Option (Nat × efi_hob_handoff_info_table × Mem) →
    Option efi_hob_handoff_info_table
  | none => none
  | some (_, t, _) => some t

def freeTopOfResult : Option (Nat × efi_hob_handoff_info_table × Mem) → Option Nat
  | none => none
  | some (_, t, _) => some t.efi_free_memory_top

/- A header store leaves every byte outside its eight-byte footprint
   unchanged. -/
theorem writeHdr_out (m : Mem) (a t l i : Nat) (h : i < a ∨ a + 8 ≤ i) :
    writeHdr m a t l i = m i := by
  simp only [writeHdr]
  split_ifs <;> omega

/- Reading the type field back from a freshly stored header. -/
theorem loadU16_writeHdr_type (m : Mem) (a t l : Nat) :
    loadU16 (writeHdr m a t l) a = t % 65536 := by
  simp only [loadU16, writeHdr]
  split_ifs <;> omega

/- Reading the length field back from a freshly stored header. -/
theorem loadU16_writeHdr_len (m : Mem) (a t l : Nat) :
    loadU16 (writeHdr m a t l) (a + 2) = l % 65536 := by
  simp only [loadU16, writeHdr]
  split_ifs <;> omega

theorem loadU16_congr (m m' : Mem) (a : Nat) (h0 : m' a = m a)
    (h1 : m' (a + 1) = m (a + 1)) : loadU16 m' a = loadU16 m a := by
  simp only [loadU16, h0, h1]

/- A byte-run store leaves every byte below its start unchanged. -/
theorem storeBytes_lt (bs : List Nat) (m : Mem) (a i : Nat) (h : i < a) :
    storeBytes m a bs i = m i := by
  induction bs generalizing m a with
  | nil => rfl
  | cons b bs ih =>
    simp only [storeBytes]
    rw [ih _ (a + 1) (by omega)]
    simp only [if_neg (by omega : ¬ i = a)]

/- A byte-run store leaves every byte at or beyond its end unchanged. -/
theorem storeBytes_ge (bs : List Nat) (m : Mem) (a i : Nat)
    (h : a + bs.length ≤ i) : storeBytes m a bs i = m i := by
  induction bs generalizing m a with
  | nil => rfl
  | cons b bs ih =>
    simp only [storeBytes]
    rw [ih _ (a + 1) (by simp at h; omega)]
    simp only [if_neg (by simp at h; omega : ¬ i = a)]

/- Reading a freshly stored byte run returns it when every byte fits in
   eight bits. -/
theorem loadBytes_storeBytes (bs : List Nat) (m : Mem) (a : Nat)
    (h : ∀ b ∈ bs, b < 256) :
    loadBytes (storeBytes m a bs) a bs.length = bs := by
  induction bs generalizing m a with
  | nil => rfl
  | cons b bs ih =>
    simp only [List.length_cons, loadBytes, storeBytes, List.cons.injEq]
    constructor
    · rw [storeBytes_lt bs _ (a + 1) a (by omega)]
      have hb : b < 256 := h b (List.mem_cons_self b bs)
      simp [Nat.mod_eq_of_lt hb]
    · exact ih _ (a + 1) fun x hx => h x (List.mem_cons_of_mem b hx)

/- The uint64 subtraction agrees with truncated subtraction on in-range
   ordered operands. -/
theorem sub64_eq (a b : Nat) (hb : b ≤ a) (ha : a < 18446744073709551616) :
    sub64 a b = a - b := by
  unfold sub64
  have h1 : a % 18446744073709551616 = a := Nat.mod_eq_of_lt ha
  have h2 : b % 18446744073709551616 = b := Nat.mod_eq_of_lt (by omega)
  rw [h1, h2]
  have h3 : a + 18446744073709551616 - b = (a - b) + 18446744073709551616 := by omega
  rw [h3, Nat.add_mod_right, Nat.mod_eq_of_lt (by omega)]

/- The rounded length is always a multiple of eight. -/
theorem alignUp8u16_mod8 (x : Nat) : alignUp8u16 x % 8 = 0 := by
  unfold alignUp8u16
  omega

/- A nonzero rounded length is at least eight and, for lengths
   representable in uint16, at least the requested length. -/
theorem alignUp8u16_ge (x : Nat) (hx : x < 65536) (h : alignUp8u16 x ≠ 0) :
    x ≤ alignUp8u16 x ∧ 8 ≤ alignUp8u16 x ∧ alignUp8u16 x < 65536 := by
  unfold alignUp8u16 at *
  omega

/- The chain of non-terminator records the raw-offset walk traverses in a
   memory image: each node is a stored header whose type differs from the
   end marker and whose length field is at least a full header, and the
   walk advances by exactly that length. -/
inductive HobChain (m : Mem) : Nat → Nat → Prop
  | refl (a : Nat) : HobChain m a a
  | step (a c : Nat)
      (hty : loadU16 m a ≠ EFI_HOB_TYPE_END_OF_HOB_LIST)
      (hlen : 8 ≤ loadU16 m (a + 2))
      (rest : HobChain m (a + loadU16 m (a + 2)) c) : HobChain m a c

theorem HobChain.le {m : Mem} {a c : Nat} (h : HobChain m a c) : a ≤ c := by
  induction h with
  | refl => exact Nat.le_refl _
  | step a c hty hlen rest ih => omega

theorem HobChain.trans {m : Mem} {a b c : Nat} (h1 : HobChain m a b)
    (h2 : HobChain m b c) : HobChain m a c := by
  induction h1 with
  | refl => exact h2
  | step a b hty hlen rest ih => exact HobChain.step a c hty hlen (ih h2)

/- A chain survives any memory change confined to addresses at or beyond
   its upper end: every header it reads lies strictly below that end. -/
theorem HobChain.mono {m m' : Mem} {a c : Nat}
    (hag : ∀ i, i < c → m' i = m i) (h : HobChain m a c) : HobChain m' a c := by
  induction h with
  | refl => exact HobChain.refl _
  | step a c hty hlen rest ih =>
    have hac : a + loadU16 m (a + 2) ≤ c := rest.le
    have ha8 : a + 8 ≤ c := by omega
    have e0 : m' a = m a := hag a (by omega)
    have e1 : m' (a + 1) = m (a + 1) := hag (a + 1) (by omega)
    have e2 : m' (a + 2) = m (a + 2) := hag (a + 2) (by omega)
    have e3 : m' (a + 3) = m (a + 3) := hag (a + 3) (by omega)
    have eload : loadU16 m' a = loadU16 m a := loadU16_congr m m' a e0 e1
    have eload2 : loadU16 m' (a + 2) = loadU16 m (a + 2) := by
      simp only [loadU16]
      rw [e2]
      have : a + 2 + 1 = a + 3 := by omega
      rw [this, e3]
    exact HobChain.step a c (by rw [eload]; exact hty) (by rw [eload2]; exact hlen)
      (by rw [eload2]; exact ih hag)

/- The bookkeeping invariant over the table fields: the free region is a
   sub-range of the owning region and the free bottom sits exactly one
   generic header past the current end of the list. -/
def TableInv (t : efi_hob_handoff_info_table) : Prop :=
  t.efi_memory_bottom ≤ t.efi_free_memory_bottom ∧
  t.efi_free_memory_bottom ≤ t.efi_free_memory_top ∧
  t.efi_free_memory_top ≤ t.efi_memory_top ∧
  t.efi_free_memory_bottom = t.efi_end_of_hob_list + sizeof_efi_hob_generic_header

instance (t : efi_hob_handoff_info_table) : Decidable (TableInv t) := by
  unfold TableInv
  infer_instance

/- The full state invariant of a table placed at address a over memory m:
   the table fields are ordered and in uint64 range, a chain of
   non-terminator records runs from just past the table header to the end
   of the list, and a terminator header is stored there. -/
def HobInv (a : Nat) (t : efi_hob_handoff_info_table) (m : Mem) : Prop :=
  TableInv t ∧
  t.efi_free_memory_top < 18446744073709551616 ∧
  HobChain m (a + sizeof_efi_hob_handoff_info_table) t.efi_end_of_hob_list ∧
  loadU16 m t.efi_end_of_hob_list = EFI_HOB_TYPE_END_OF_HOB_LIST ∧
  loadU16 m (t.efi_end_of_hob_list + 2) = sizeof_efi_hob_generic_header

/- Branch characterizations of _create_hob, mirroring its three return
   paths. -/
theorem _create_hob_none_eq (m : Mem) (ht hl : Nat) :
    _create_hob none m ht hl = (none, none, m) := rfl

theorem _create_hob_zero_eq (t : efi_hob_handoff_info_table) (m : Mem)
    (ht hl : Nat) (h0 : alignUp8u16 hl = 0) :
    _create_hob (some t) m ht hl = (none, some t, m) := by
  simp only [_create_hob]
  rw [if_pos h0]

theorem _create_hob_oom_eq (t : efi_hob_handoff_info_table) (m : Mem)
    (ht hl : Nat) (h0 : alignUp8u16 hl ≠ 0)
    (hgt : alignUp8u16 hl > sub64 t.efi_free_memory_top t.efi_free_memory_bottom) :
    _create_hob (some t) m ht hl = (none, some t, m) := by
  simp only [_create_hob]
  rw [if_neg h0, if_pos hgt]

theorem _create_hob_success_eq (t : efi_hob_handoff_info_table) (m : Mem)
    (ht hl : Nat) (h0 : alignUp8u16 hl ≠ 0)
    (hle : ¬ alignUp8u16 hl > sub64 t.efi_free_memory_top t.efi_free_memory_bottom) :
    _create_hob (some t) m ht hl =
      (some t.efi_end_of_hob_list,
       some { t with
         efi_end_of_hob_list := t.efi_end_of_hob_list + alignUp8u16 hl,
         efi_free_memory_bottom :=
           t.efi_end_of_hob_list + alignUp8u16 hl + sizeof_efi_hob_generic_header },
       writeHdr (writeHdr m t.efi_end_of_hob_list ht (alignUp8u16 hl))
         (t.efi_end_of_hob_list + alignUp8u16 hl) EFI_HOB_TYPE_END_OF_HOB_LIST
         sizeof_efi_hob_generic_header) := by
  simp only [_create_hob]
  rw [if_neg h0, if_neg hle]

/- A concrete post-initialization state used to instantiate the claim
   theorems: the table create_hob_list builds from the inputs 4096, 4096,
   4096, 4096, together with the memory holding its terminator. -/
def exMem : Mem :=
  writeHdr memZero 4152 EFI_HOB_TYPE_END_OF_HOB_LIST sizeof_efi_hob_generic_header

def exTbl : efi_hob_handoff_info_table :=
  { header := { hob_type := EFI_HOB_TYPE_HANDOFF,
                hob_length := sizeof_efi_hob_handoff_info_table,
                reserved := 0 },
    version := EFI_HOB_HANDOFF_TABLE_VERSION,
    boot_mode := BOOT_WITH_FULL_CONFIGURATION,
    efi_memory_top := 8192,
    efi_memory_bottom := 4096,
    efi_free_memory_top := 8192,
    efi_free_memory_bottom := 4160,
    efi_end_of_hob_list := 4152 }

theorem exTbl_from_init :
    create_hob_list memZero 4096 4096 4096 4096 = some (4096, exTbl, exMem) := rfl

theorem exInv : HobInv 4096 exTbl exMem := by
  refine ⟨by decide, by decide, ?_, by decide, by decide⟩
  exact HobChain.refl 4152

def guidEx : List Nat := [16, 21, 32, 43, 54, 65, 76, 87, 98, 109, 120, 131, 142, 153, 164, 175]

/- The invariant as read off an initialization result and as carried
   across one append call. -/
def initInv : Option (Nat × efi_hob_handoff_info_table × Mem) → Prop
  | none => False
  | some (_, t, m) => TableInv t ∧
      loadU16 m t.efi_end_of_hob_list = EFI_HOB_TYPE_END_OF_HOB_LIST

def stepInv : Option efi_hob_handoff_info_table → Mem → Prop
  | none, _ => True
  | some t, m => TableInv t ∧ t.efi_free_memory_top < 18446744073709551616 ∧
      loadU16 m t.efi_end_of_hob_list = EFI_HOB_TYPE_END_OF_HOB_LIST

/-- C1: evaluating the table initializer at region base 4096, region
length 12288, free base 8192, free length 4096 shows the code stores
region_base + free_length = 8192 into efi_free_memory_top, not
free_base + free_length = 12288 as the claim states. -/
theorem claim_C1_free_top_divergence :
    freeTopOfResult (create_hob_list memZero 4096 12288 8192 4096) = some 8192 ∧
    freeTopOfResult (create_hob_list memZero 4096 12288 8192 4096) ≠ some (8192 + 4096) := by
  decide

/-- C2 counterexample: the initializer called with the non-zero inputs
4096, 4096, 4096, 8 succeeds yet produces a table whose free bottom 4160
exceeds its free top 4104, so the claimed invariant does not hold for
every successful initialization with non-zero inputs. -/
theorem claim_C2_counterexample :
    (tblOfResult (create_hob_list memZero 4096 4096 4096 8)).map
      (fun t => decide (TableInv t)) = some false := by
  decide

/-- C2 (amended): the invariant memory_bottom ≤ free_bottom ≤ free_top ≤
memory_top, with free_bottom one generic header past the terminator most
recently written at end_of_list, holds for every successful
initialization whose inputs additionally satisfy region_base ≤ free_base
+ 64, free_base + 64 ≤ region_base + free_length, free_length ≤
region_length, and region_base + region_length < 2^64 (so neither uint64
bound computation wraps), and is preserved by every append call,
successful or failing. -/
theorem claim_C2_invariant_amended :
    (∀ (m : Mem) (B RL F FL : Nat), B ≠ 0 → RL ≠ 0 → F ≠ 0 → FL ≠ 0 →
       B ≤ F + 64 → F + 64 ≤ B + FL → FL ≤ RL →
       B + RL < 18446744073709551616 →
       initInv (create_hob_list m B RL F FL)) ∧
    (∀ (tblOpt : Option efi_hob_handoff_info_table) (m : Mem) (ht hl : Nat),
       stepInv tblOpt m →
       stepInv (_create_hob tblOpt m ht hl).2.1 (_create_hob tblOpt m ht hl).2.2) := by
  constructor
  · intro m B RL F FL hB hRL hF hFL hc1 hc2 hc3 hov
    simp only [create_hob_list]
    rw [if_neg (by omega)]
    simp only [initInv]
    refine ⟨?_, ?_⟩
    · simp only [TableInv, sizeof_efi_hob_handoff_info_table, sizeof_efi_hob_generic_header]
      refine ⟨?_, ?_, ?_, trivial⟩ <;> omega
    · rw [loadU16_writeHdr_type]
      decide
  · intro tblOpt m ht hl hinv
    cases tblOpt with
    | none => rw [_create_hob_none_eq]; trivial
    | some t =>
      by_cases h0 : alignUp8u16 hl = 0
      · rw [_create_hob_zero_eq t m ht hl h0]; exact hinv
      · by_cases hgt : alignUp8u16 hl >
            sub64 t.efi_free_memory_top t.efi_free_memory_bottom
        · rw [_create_hob_oom_eq t m ht hl h0 hgt]; exact hinv
        · rw [_create_hob_success_eq t m ht hl h0 hgt]
          obtain ⟨⟨h1, h2, h3, h4⟩, hw, hload⟩ := hinv
          have hsub : sub64 t.efi_free_memory_top t.efi_free_memory_bottom =
              t.efi_free_memory_top - t.efi_free_memory_bottom := sub64_eq _ _ h2 hw
          rw [hsub] at hgt
          simp only [sizeof_efi_hob_generic_header] at h4 ⊢
          refine ⟨⟨?_, ?_, ?_, ?_⟩, ?_, ?_⟩
          · simp only []; omega
          · simp only []; omega
          · exact h3
          · rfl
          · exact hw
          · simp only []
            rw [loadU16_writeHdr_type]
            decide

theorem claim_C2_invariant_amended_witness :
    initInv (create_hob_list memZero 4096 4096 4096 4096) ∧
    stepInv (_create_hob (some exTbl) exMem 3 48).2.1
      (_create_hob (some exTbl) exMem 3 48).2.2 :=
  ⟨claim_C2_invariant_amended.1 memZero 4096 4096 4096 4096 (by decide) (by decide)
     (by decide) (by decide) (by decide) (by decide) (by decide) (by decide),
   claim_C2_invariant_amended.2 (some exTbl) exMem 3 48 ⟨by decide, by decide, by decide⟩⟩

/-- C3 counterexample: calling the GUID producer with a NULL tag pointer
and a non-NULL output slot holding the stale value 7 fails with
BadParameters and leaves the slot at 7, so not every failing call clears
the output data pointer. -/
theorem claim_C3_counterexample :
    (create_guid_hob none memZero none false 0 7).1 = TeeResult.badParameters ∧
    (create_guid_hob none memZero none false 0 7).2.2.2 = 7 ∧ (7 : Nat) ≠ 0 := by
  decide

/-- C3 (amended): only a failure with OutOfMemory clears the
caller-supplied output data pointer to NULL; a BadParameters failure
returns with the output slot unchanged. -/
theorem claim_C3_clear_on_oom (tblOpt : Option efi_hob_handoff_info_table)
    (m : Mem) (guid : Option (List Nat)) (dnull : Bool) (dl old : Nat) :
    ((create_guid_hob tblOpt m guid dnull dl old).1 = TeeResult.outOfMemory →
      (create_guid_hob tblOpt m guid dnull dl old).2.2.2 = 0) ∧
    ((create_guid_hob tblOpt m guid dnull dl old).1 = TeeResult.badParameters →
      (create_guid_hob tblOpt m guid dnull dl old).2.2.2 = old) := by
  simp only [create_guid_hob]
  split_ifs with hc
  · refine ⟨fun h => ?_, fun _ => rfl⟩
    simp at h
  · rcases hE : (_create_hob tblOpt m EFI_HOB_TYPE_GUID_EXTENSION
        ((dl + sizeof_efi_hob_guid_type) % 65536)).1 with _ | h <;>
      simp [hE]

theorem claim_C3_witness :
    (create_guid_hob none memZero (some guidEx) false 0 7).2.2.2 = 0 ∧
    (create_guid_hob (some exTbl) exMem none false 0 7).2.2.2 = 7 :=
  ⟨(claim_C3_clear_on_oom none memZero (some guidEx) false 0 7).1 (by decide),
   (claim_C3_clear_on_oom (some exTbl) exMem none false 0 7).2 (by decide)⟩

/-- C4: every failing append call, whether from a NULL table, a rounded
length of zero, or a rounded length exceeding the free-region size,
returns NULL and leaves the table and every byte of memory exactly as
they were: no partial record or terminator is written. -/
theorem claim_C4_failure_unchanged (tblOpt : Option efi_hob_handoff_info_table)
    (m : Mem) (ht hl : Nat)
    (h : tblOpt = none ∨ alignUp8u16 hl = 0 ∨
      ∃ t, tblOpt = some t ∧
        alignUp8u16 hl > sub64 t.efi_free_memory_top t.efi_free_memory_bottom) :
    _create_hob tblOpt m ht hl = (none, tblOpt, m) := by
  rcases h with h | h | ⟨t, rfl, hgt⟩
  · subst h; rfl
  · cases tblOpt with
    | none => rfl
    | some t => exact _create_hob_zero_eq t m ht hl h
  · by_cases h0 : alignUp8u16 hl = 0
    · exact _create_hob_zero_eq t m ht hl h0
    · exact _create_hob_oom_eq t m ht hl h0 hgt

theorem claim_C4_witness : _create_hob none memZero 3 16 = (none, none, memZero) :=
  claim_C4_failure_unchanged none memZero 3 16 (Or.inl rfl)

/-- C7: when data_length + 24 wraps below data_length in the uint16
length, or the tag pointer or output pointer is NULL, the GUID producer
returns BadParameters with the table, the memory and the output slot all
untouched: no allocation is attempted. -/
theorem claim_C7_bad_params (tblOpt : Option efi_hob_handoff_info_table)
    (m : Mem) (guid : Option (List Nat)) (dnull : Bool) (dl old : Nat)
    (h : guid = none ∨ dnull = true ∨ (dl + sizeof_efi_hob_guid_type) % 65536 < dl) :
    create_guid_hob tblOpt m guid dnull dl old =
      (TeeResult.badParameters, tblOpt, m, old) := by
  have hc : guid.isNone = true ∨ dnull = true ∨
      (dl + sizeof_efi_hob_guid_type) % 65536 < dl := by
    rcases h with rfl | h | h
    · exact Or.inl rfl
    · exact Or.inr (Or.inl h)
    · exact Or.inr (Or.inr h)
  simp only [create_guid_hob]
  rw [if_pos hc]

theorem claim_C7_witness :
    create_guid_hob (some exTbl) exMem none false 0 5 =
      (TeeResult.badParameters, some exTbl, exMem, 5) :=
  claim_C7_bad_params (some exTbl) exMem none false 0 5 (Or.inl rfl)

/-- C9: the eight-byte round-up is computed in the uint16 length type, so
every requested length from 0xFFF9 to 0xFFFF rounds to zero and the
append primitive rejects it exactly like a zero-length request, writing
nothing; through the GUID producer the data lengths 0xFFE1 to 0xFFE7
reach that wrap and fail with OutOfMemory (with the output slot cleared)
instead of overrunning the region. -/
theorem claim_C9_wrap_rejected :
    (∀ x, 65529 ≤ x → x ≤ 65535 → alignUp8u16 x = 0) ∧
    (∀ (tblOpt : Option efi_hob_handoff_info_table) (m : Mem) (ht x : Nat),
      65529 ≤ x → x ≤ 65535 → _create_hob tblOpt m ht x = (none, tblOpt, m)) ∧
    (∀ (tblOpt : Option efi_hob_handoff_info_table) (m : Mem) (g : List Nat)
      (old dl : Nat), 65505 ≤ dl → dl ≤ 65511 →
      create_guid_hob tblOpt m (some g) false dl old =
        (TeeResult.outOfMemory, tblOpt, m, 0)) := by
  have hz : ∀ x, 65529 ≤ x → x ≤ 65535 → alignUp8u16 x = 0 := by
    intro x h1 h2
    unfold alignUp8u16
    omega
  have hcr : ∀ (tblOpt : Option efi_hob_handoff_info_table) (m : Mem) (ht x : Nat),
      65529 ≤ x → x ≤ 65535 → _create_hob tblOpt m ht x = (none, tblOpt, m) := by
    intro tblOpt m ht x h1 h2
    cases tblOpt with
    | none => rfl
    | some t => exact _create_hob_zero_eq t m ht x (hz x h1 h2)
  refine ⟨hz, hcr, ?_⟩
  intro tblOpt m g old dl h1 h2
  simp only [create_guid_hob, sizeof_efi_hob_guid_type]
  rw [if_neg (by simp; omega)]
  rw [hcr tblOpt m EFI_HOB_TYPE_GUID_EXTENSION ((dl + 24) % 65536)
    (by omega) (by omega)]

/-- C6: for a non-NULL table whose free bounds are ordered and in uint64
range and a request with nonzero rounded length, the append primitive
fails exactly when the rounded length exceeds free_top - free_bottom: no
other check rejects such a request, and every successful append leaves
the resulting free bottom at or below free_top. -/
theorem claim_C6_admission_control (t : efi_hob_handoff_info_table) (m : Mem)
    (ht hl : Nat) (hinv : TableInv t)
    (hw : t.efi_free_memory_top < 18446744073709551616)
    (hnz : alignUp8u16 hl ≠ 0) :
    ((_create_hob (some t) m ht hl).1 = none ↔
      t.efi_free_memory_top - t.efi_free_memory_bottom < alignUp8u16 hl) ∧
    ((_create_hob (some t) m ht hl).1 ≠ none →
      (((_create_hob (some t) m ht hl).2.1).getD t).efi_free_memory_bottom ≤
        t.efi_free_memory_top) := by
  obtain ⟨h1, h2, h3, h4⟩ := hinv
  have hsub : sub64 t.efi_free_memory_top t.efi_free_memory_bottom =
      t.efi_free_memory_top - t.efi_free_memory_bottom := sub64_eq _ _ h2 hw
  by_cases hgt : alignUp8u16 hl > sub64 t.efi_free_memory_top t.efi_free_memory_bottom
  · rw [_create_hob_oom_eq t m ht hl hnz hgt]
    rw [hsub] at hgt
    exact ⟨⟨fun _ => hgt, fun _ => rfl⟩, fun hne => absurd rfl hne⟩
  · rw [_create_hob_success_eq t m ht hl hnz hgt]
    rw [hsub] at hgt
    refine ⟨⟨fun habs => by simp at habs, fun hlt => absurd hlt hgt⟩, fun _ => ?_⟩
    dsimp only [Option.getD]
    simp only [sizeof_efi_hob_generic_header] at h4 ⊢
    omega

theorem claim_C6_witness :
    ((_create_hob (some exTbl) exMem 3 48).1 = none ↔
      exTbl.efi_free_memory_top - exTbl.efi_free_memory_bottom < alignUp8u16 48) ∧
    ((_create_hob (some exTbl) exMem 3 48).1 ≠ none →
      (((_create_hob (some exTbl) exMem 3 48).2.1).getD exTbl).efi_free_memory_bottom ≤
        exTbl.efi_free_memory_top) :=
  claim_C6_admission_control exTbl exMem 3 48 (by decide) (by decide) (by decide)

/-- C10: when the rounded length equals free_top - free_bottom exactly,
the append succeeds, the new free bottom lands exactly on free_top, and
the fresh terminator (one generic header ending at the new free bottom)
still fits inside the free region. -/
theorem claim_C10_exact_fit (t : efi_hob_handoff_info_table) (m : Mem)
    (ht hl : Nat) (hinv : TableInv t)
    (hw : t.efi_free_memory_top < 18446744073709551616)
    (hnz : alignUp8u16 hl ≠ 0)
    (hfit : alignUp8u16 hl = t.efi_free_memory_top - t.efi_free_memory_bottom) :
    (_create_hob (some t) m ht hl).1 = some t.efi_end_of_hob_list ∧
    (((_create_hob (some t) m ht hl).2.1).getD t).efi_free_memory_bottom =
      t.efi_free_memory_top ∧
    (((_create_hob (some t) m ht hl).2.1).getD t).efi_end_of_hob_list +
      sizeof_efi_hob_generic_header ≤ t.efi_free_memory_top := by
  obtain ⟨h1, h2, h3, h4⟩ := hinv
  have hsub : sub64 t.efi_free_memory_top t.efi_free_memory_bottom =
      t.efi_free_memory_top - t.efi_free_memory_bottom := sub64_eq _ _ h2 hw
  have hgt : ¬ alignUp8u16 hl > sub64 t.efi_free_memory_top t.efi_free_memory_bottom := by
    rw [hsub]
    omega
  rw [_create_hob_success_eq t m ht hl hnz hgt]
  refine ⟨rfl, ?_, ?_⟩ <;>
  · dsimp only [Option.getD]
    simp only [sizeof_efi_hob_generic_header] at h4 ⊢
    omega

theorem claim_C10_witness :
    (_create_hob (some exTbl) exMem 3 4032).1 = some exTbl.efi_end_of_hob_list ∧
    (((_create_hob (some exTbl) exMem 3 4032).2.1).getD exTbl).efi_free_memory_bottom =
      exTbl.efi_free_memory_top ∧
    (((_create_hob (some exTbl) exMem 3 4032).2.1).getD exTbl).efi_end_of_hob_list +
      sizeof_efi_hob_generic_header ≤ exTbl.efi_free_memory_top :=
  claim_C10_exact_fit exTbl exMem 3 4032 (by decide) (by decide) (by decide) (by decide)

theorem claim_C9_witness :
    alignUp8u16 65530 = 0 ∧
    _create_hob none memZero 3 65530 = (none, none, memZero) ∧
    create_guid_hob (some exTbl) exMem (some guidEx) false 65506 9 =
      (TeeResult.outOfMemory, some exTbl, exMem, 0) :=
  ⟨claim_C9_wrap_rejected.1 65530 (by decide) (by decide),
   claim_C9_wrap_rejected.2.1 none memZero 3 65530 (by decide) (by decide),
   claim_C9_wrap_rejected.2.2 (some exTbl) exMem guidEx 9 65506 (by decide) (by decide)⟩

/-- C5: for every successful append on a table satisfying the state
invariant, with a record type other than the end marker as at every call
site: the rounded length is a multiple of 8 and at least the requested
length, free_bottom grows by exactly the rounded length, the record is
carved at the old end of the list, and afterwards the walk from just
past the table header consists of non-terminator records followed by
exactly one terminator, located at the new record address plus the
rounded length, which is also the new end_of_list. -/
theorem claim_C5_append_success (a : Nat) (t : efi_hob_handoff_info_table)
    (m : Mem) (ht hl hob : Nat) (hhl : hl < 65536) (hht : ht < 65536)
    (hne : ht ≠ EFI_HOB_TYPE_END_OF_HOB_LIST) (hinv : HobInv a t m)
    (hs : (_create_hob (some t) m ht hl).1 = some hob) :
    alignUp8u16 hl % 8 = 0 ∧
    hl ≤ alignUp8u16 hl ∧
    hob = t.efi_end_of_hob_list ∧
    (((_create_hob (some t) m ht hl).2.1).getD t).efi_free_memory_bottom =
      t.efi_free_memory_bottom + alignUp8u16 hl ∧
    t.efi_free_memory_bottom <
      (((_create_hob (some t) m ht hl).2.1).getD t).efi_free_memory_bottom ∧
    (((_create_hob (some t) m ht hl).2.1).getD t).efi_end_of_hob_list =
      hob + alignUp8u16 hl ∧
    HobChain ((_create_hob (some t) m ht hl).2.2)
      (a + sizeof_efi_hob_handoff_info_table) (hob + alignUp8u16 hl) ∧
    loadU16 ((_create_hob (some t) m ht hl).2.2) (hob + alignUp8u16 hl) =
      EFI_HOB_TYPE_END_OF_HOB_LIST ∧
    loadU16 ((_create_hob (some t) m ht hl).2.2) (hob + alignUp8u16 hl + 2) =
      sizeof_efi_hob_generic_header := by
  obtain ⟨⟨h1, h2, h3, h4⟩, hw, hchain, hload, hload2⟩ := hinv
  by_cases h0 : alignUp8u16 hl = 0
  · rw [_create_hob_zero_eq t m ht hl h0] at hs
    simp at hs
  by_cases hgt : alignUp8u16 hl > sub64 t.efi_free_memory_top t.efi_free_memory_bottom
  · rw [_create_hob_oom_eq t m ht hl h0 hgt] at hs
    simp at hs
  obtain ⟨hge, hL8, hL16⟩ := alignUp8u16_ge hl hhl h0
  rw [_create_hob_success_eq t m ht hl h0 hgt] at hs ⊢
  dsimp only at hs
  injection hs with hs
  subst hs
  have hagree : ∀ i, i < t.efi_end_of_hob_list →
      writeHdr (writeHdr m t.efi_end_of_hob_list ht (alignUp8u16 hl))
        (t.efi_end_of_hob_list + alignUp8u16 hl) EFI_HOB_TYPE_END_OF_HOB_LIST
        sizeof_efi_hob_generic_header i =
      m i := by
    intro i hi
    rw [writeHdr_out _ _ _ _ _ (Or.inl (by omega)),
        writeHdr_out _ _ _ _ _ (Or.inl hi)]
  have hty2 : loadU16
      (writeHdr (writeHdr m t.efi_end_of_hob_list ht (alignUp8u16 hl))
        (t.efi_end_of_hob_list + alignUp8u16 hl) EFI_HOB_TYPE_END_OF_HOB_LIST
        sizeof_efi_hob_generic_header)
      t.efi_end_of_hob_list = ht := by
    rw [loadU16_congr _ _ _ (writeHdr_out _ _ _ _ _ (Or.inl (by omega)))
      (writeHdr_out _ _ _ _ _ (Or.inl (by omega)))]
    rw [loadU16_writeHdr_type, Nat.mod_eq_of_lt hht]
  have hlen2 : loadU16
      (writeHdr (writeHdr m t.efi_end_of_hob_list ht (alignUp8u16 hl))
        (t.efi_end_of_hob_list + alignUp8u16 hl) EFI_HOB_TYPE_END_OF_HOB_LIST
        sizeof_efi_hob_generic_header)
      (t.efi_end_of_hob_list + 2) = alignUp8u16 hl := by
    rw [loadU16_congr _ _ _ (writeHdr_out _ _ _ _ _ (Or.inl (by omega)))
      (writeHdr_out _ _ _ _ _ (Or.inl (by omega)))]
    rw [loadU16_writeHdr_len, Nat.mod_eq_of_lt hL16]
  refine ⟨alignUp8u16_mod8 hl, hge, rfl, ?_, ?_, ?_, ?_, ?_, ?_⟩
  · dsimp only [Option.getD]
    simp only [sizeof_efi_hob_generic_header] at h4 ⊢
    omega
  · dsimp only [Option.getD]
    simp only [sizeof_efi_hob_generic_header] at h4 ⊢
    omega
  · dsimp only [Option.getD]
  · dsimp only
    refine HobChain.trans (HobChain.mono hagree hchain) ?_
    refine HobChain.step _ _ ?_ ?_ ?_
    · rw [hty2]
      exact hne
    · rw [hlen2]
      exact hL8
    · rw [hlen2]
      exact HobChain.refl _
  · dsimp only
    rw [loadU16_writeHdr_type]
    decide
  · dsimp only
    rw [loadU16_writeHdr_len]
    decide

theorem claim_C5_witness :
    alignUp8u16 48 % 8 = 0 ∧
    48 ≤ alignUp8u16 48 ∧
    (4152 : Nat) = exTbl.efi_end_of_hob_list ∧
    (((_create_hob (some exTbl) exMem 3 48).2.1).getD exTbl).efi_free_memory_bottom =
      exTbl.efi_free_memory_bottom + alignUp8u16 48 ∧
    exTbl.efi_free_memory_bottom <
      (((_create_hob (some exTbl) exMem 3 48).2.1).getD exTbl).efi_free_memory_bottom ∧
    (((_create_hob (some exTbl) exMem 3 48).2.1).getD exTbl).efi_end_of_hob_list =
      4152 + alignUp8u16 48 ∧
    HobChain ((_create_hob (some exTbl) exMem 3 48).2.2)
      (4096 + sizeof_efi_hob_handoff_info_table) (4152 + alignUp8u16 48) ∧
    loadU16 ((_create_hob (some exTbl) exMem 3 48).2.2) (4152 + alignUp8u16 48) =
      EFI_HOB_TYPE_END_OF_HOB_LIST ∧
    loadU16 ((_create_hob (some exTbl) exMem 3 48).2.2) (4152 + alignUp8u16 48 + 2) =
      sizeof_efi_hob_generic_header :=
  claim_C5_append_success 4096 exTbl exMem 3 48 4152 (by decide) (by decide) (by decide)
    exInv (by decide)

/-- C8: every successful GUID producer call returns the payload pointer
at the record address plus the 24-byte GUID record header, stores the 16
tag bytes verbatim just behind the generic header, and writes no payload
byte itself: the payload area still holds exactly the bytes memory held
before the call. -/
theorem claim_C8_guid_success (t : efi_hob_handoff_info_table) (m : Mem)
    (g : List Nat) (dl old : Nat) (hg : g.length = 16)
    (hgb : ∀ b ∈ g, b < 256)
    (hs : (create_guid_hob (some t) m (some g) false dl old).1 = TeeResult.success) :
    (create_guid_hob (some t) m (some g) false dl old).2.2.2 =
      t.efi_end_of_hob_list + sizeof_efi_hob_guid_type ∧
    loadBytes (create_guid_hob (some t) m (some g) false dl old).2.2.1
      (t.efi_end_of_hob_list + sizeof_efi_hob_generic_header) 16 = g ∧
    (∀ i, t.efi_end_of_hob_list + sizeof_efi_hob_guid_type ≤ i →
      i < t.efi_end_of_hob_list + alignUp8u16 ((dl + sizeof_efi_hob_guid_type) % 65536) →
      (create_guid_hob (some t) m (some g) false dl old).2.2.1 i = m i) := by
  simp only [create_guid_hob] at hs ⊢
  by_cases hwrap : (dl + sizeof_efi_hob_guid_type) % 65536 < dl
  · rw [if_pos (Or.inr (Or.inr hwrap))] at hs
    simp at hs
  have hcnd : ¬ ((some g).isNone = true ∨ false = true ∨
      (dl + sizeof_efi_hob_guid_type) % 65536 < dl) := by
    intro hcc
    rcases hcc with hcc | hcc | hcc
    · simp at hcc
    · simp at hcc
    · exact hwrap hcc
  rw [if_neg hcnd] at hs
  simp only [if_neg hcnd]
  by_cases h0 : alignUp8u16 ((dl + sizeof_efi_hob_guid_type) % 65536) = 0
  · rw [_create_hob_zero_eq t m EFI_HOB_TYPE_GUID_EXTENSION _ h0] at hs
    simp at hs
  by_cases hgt : alignUp8u16 ((dl + sizeof_efi_hob_guid_type) % 65536) >
      sub64 t.efi_free_memory_top t.efi_free_memory_bottom
  · rw [_create_hob_oom_eq t m EFI_HOB_TYPE_GUID_EXTENSION _ h0 hgt] at hs
    simp at hs
  have hsucc := _create_hob_success_eq t m EFI_HOB_TYPE_GUID_EXTENSION
    ((dl + sizeof_efi_hob_guid_type) % 65536) h0 hgt
  rw [hsucc] at hs
  simp only [hsucc, Option.getD_some]
  try dsimp only
  refine ⟨trivial, ?_, ?_⟩
  · rw [show (16 : Nat) = g.length from hg.symm]
    exact loadBytes_storeBytes g _ _ hgb
  · intro i hi1 hi2
    simp only [sizeof_efi_hob_guid_type, sizeof_efi_hob_generic_header] at hi1 hi2 ⊢
    rw [storeBytes_ge g _ _ _ (by rw [hg]; omega)]
    rw [writeHdr_out _ _ _ _ _ (Or.inl (by omega)),
        writeHdr_out _ _ _ _ _ (Or.inr (by omega))]

theorem claim_C8_witness :
    (create_guid_hob (some exTbl) exMem (some guidEx) false 10 0).2.2.2 =
      exTbl.efi_end_of_hob_list + sizeof_efi_hob_guid_type ∧
    loadBytes (create_guid_hob (some exTbl) exMem (some guidEx) false 10 0).2.2.1
      (exTbl.efi_end_of_hob_list + sizeof_efi_hob_generic_header) 16 = guidEx ∧
    (create_guid_hob (some exTbl) exMem (some guidEx) false 10 0).2.2.1 4180 =
      exMem 4180 := by
  have h := claim_C8_guid_success exTbl exMem guidEx 10 0 (by decide) (by decide) (by decide)
  exact ⟨h.1, h.2.1, h.2.2 4180 (by decide) (by decide)⟩

end Hob
